import Mathlib

/-!
Verification of the AWSextract batch extraction pipeline.

The definitions below are a shallow embedding of the Python sources
`src/gspread_from_s3.py` and `src/commoncrawl-processor.py`.  External
collaborators (the JSON parser, UTF-8 codecs, BeautifulSoup, the S3 client,
the network transport, the random jitter draw) appear as function
parameters; the control flow of the embedded functions mirrors the source
line by line.  Python string operations used by the sources (`strip`,
`split`, the `in` containment test, slicing) are embedded as executable
functions on `List Char`.
-/

namespace AWSextract

/-! ### Python string primitives -/

/-- Python `str.split` on the newline character: splits at every newline,
keeping empty segments (so `"a\n\nb"` gives three segments). -/
def splitNL : List Char → List (List Char)
  | [] => [[]]
  | c :: rest =>
    match splitNL rest with
    | [] => [[]]
    | seg :: segs => if c = '\n' then [] :: seg :: segs else (c :: seg) :: segs

/-- Python `str.strip()` with no argument: removes leading and trailing
whitespace. -/
def pyStrip (l : List Char) : List Char :=
  ((l.dropWhile Char.isWhitespace).reverse.dropWhile Char.isWhitespace).reverse

/-- Whether the first list is an initial segment of the second. -/
def leadsWith : List Char → List Char → Bool
  | [], _ => true
  | _ :: _, [] => false
  | a :: as, b :: bs => a == b && leadsWith as bs

/-- Python `needle in hay` on strings: substring containment. -/
def occursIn (needle : List Char) : List Char → Bool
  | [] => leadsWith needle []
  | c :: rest => leadsWith needle (c :: rest) || occursIn needle rest

/-- Python slicing `s[:n]`: the first `n` characters of a string. -/
def pyTake (n : Nat) (s : String) : String :=
  String.mk (s.data.take n)

/-! ### BackoffRetrier (src/gspread_from_s3.py, lines 95-110) -/

/-- Outcome of one attempt of the guarded operation passed to
`retry_with_backoff` (src/gspread_from_s3.py, lines 100-110): the call
either returns a value, raises a gspread APIError carrying an HTTP status
code, or raises some other exception. -/
inductive AttemptOutcome (α : Type) where
  | success (value : α)
  | apiError (statusCode : Nat)
  | otherError
deriving DecidableEq

/-- Error outcomes visible to the caller of `retry_with_backoff`: an
APIError re-raised because its status is not 429, any other exception
propagated unchanged, or the final Exception with message
"Max retry attempts reached". -/
inductive RetryError where
  | apiError (statusCode : Nat)
  | otherError
  | exhausted
deriving DecidableEq

/-- Embedding of `exponential_backoff` (src/gspread_from_s3.py, lines
95-97): the time slept is `min(300, 2 ** attempt + uniform(0, 1))`.  The
random draw is the external parameter `jitter`. -/
def exponential_backoff (jitter : Nat → ℚ) (attempt : Nat) : ℚ :=
  min 300 ((2 : ℚ) ^ attempt + jitter attempt)

/-- Loop body of `retry_with_backoff`: `attempt` is the current loop index
and `remaining` the number of loop iterations left.  On success return the
value; on an APIError with status 429 sleep `exponential_backoff attempt`
and continue; on any other error re-raise; when the loop is exhausted raise
the final exception.  The second component is the list of waits performed,
in order. -/
def retryAux {α : Type} (f : Nat → AttemptOutcome α) (jitter : Nat → ℚ) :
    Nat → Nat → Except RetryError α × List ℚ
  | _, 0 => (Except.error RetryError.exhausted, [])
  | attempt, remaining + 1 =>
    match f attempt with
    | AttemptOutcome.success v => (Except.ok v, [])
    | AttemptOutcome.apiError code =>
      if code = 429 then
        let rest := retryAux f jitter (attempt + 1) remaining
        (rest.1, exponential_backoff jitter attempt :: rest.2)
      else (Except.error (RetryError.apiError code), [])
    | AttemptOutcome.otherError => (Except.error RetryError.otherError, [])

/-- Embedding of `retry_with_backoff` (src/gspread_from_s3.py, lines
100-110) with `max_attempts` attempts (the source default is 5).  Returns
the result delivered to the caller together with the list of waits
performed. -/
def retry_with_backoff {α : Type} (f : Nat → AttemptOutcome α) (jitter : Nat → ℚ)
    (max_attempts : Nat) : Except RetryError α × List ℚ :=
  retryAux f jitter 0 max_attempts

/-- The waits `retry_with_backoff` performs for `k` consecutive
rate-limited failures starting at loop index `attempt`. -/
def expectedWaits (jitter : Nat → ℚ) (attempt : Nat) : Nat → List ℚ
  | 0 => []
  | k + 1 => exponential_backoff jitter attempt :: expectedWaits jitter (attempt + 1) k

/-! ### IndexQueryClient (src/commoncrawl-processor.py, lines 38-51) -/

/-- Result of `requests.get` as seen by `query_index`: either the request
raised (connection error, timeout, ...) or a response with a status code
and a body text arrived. -/
inductive HttpResult where
  | transportError
  | response (statusCode : Nat) (body : String)

/-- The lines the comprehension in `query_index` iterates over:
`response.text.strip().split('\n')` filtered by Python truthiness
(`if line`, i.e. non-empty). -/
def pyLines (text : String) : List String :=
  ((splitNL (pyStrip text.data)).filter (fun seg => !seg.isEmpty)).map String.mk

/-- The list comprehension `[json.loads(line) for line in lines]` under
Python exception semantics: `json.loads` is applied left to right and the
first malformed line raises, aborting the whole comprehension (`none`). -/
def mapJson {J : Type} (jsonLoads : String → Option J) : List String → Option (List J)
  | [] => some []
  | line :: rest =>
    match jsonLoads line with
    | none => none
    | some j =>
      match mapJson jsonLoads rest with
      | none => none
      | some js => some (j :: js)

/-- Embedding of `CommonCrawlProcessor.query_index` (src/commoncrawl-processor.py,
lines 38-51).  The external JSON parser is the parameter `jsonLoads`
(`none` models a raised `json.JSONDecodeError`).  The whole request and the
comprehension sit inside one `try`/`except` that prints and falls through
to `return []`. -/
def query_index {J : Type} (jsonLoads : String → Option J) (resp : HttpResult) : List J :=
  match resp with
  | HttpResult.transportError => []
  | HttpResult.response statusCode body =>
    if statusCode = 200 then
      match mapJson jsonLoads (pyLines body) with
      | some records => records
      | none => []
    else []

/-! ### BatchSink (src/commoncrawl-processor.py, lines 53-77) -/

/-- Outcome of the external `s3_client.put_object` call: it either succeeds
or raises. -/
inductive PutOutcome where
  | succeeded
  | failed
deriving DecidableEq

/-- Observable behaviour of one `save_to_s3` call: the `put_object` calls
performed (as bucket/key pairs), the value returned to the caller (the
Python function has no `return value`, so this is the location reported, if
any), the exception visible to the caller (if any), and the messages
printed. -/
structure SaveResult where
  puts : List (String × String)
  returnedLocation : Option String
  raisedToCaller : Option String
  log : List String
deriving DecidableEq

/-- Embedding of `CommonCrawlProcessor.save_to_s3` (src/commoncrawl-processor.py,
lines 53-77).  `putOutcome` is the behaviour of the external
`s3_client.put_object`; `timestamp` is the formatted `datetime.now()`;
`bucket_name` is the processor's configured bucket.  An empty `data`
returns at once with no put; otherwise one put is attempted and any
exception it raises is caught and printed, never re-raised. -/
def save_to_s3 {Row : Type} (putOutcome : PutOutcome) (timestamp bucket_name : String)
    (data : List Row) (folder_name index : String) : SaveResult :=
  if data.isEmpty then
    ⟨[], none, none, []⟩
  else
    let key := folder_name ++ "/" ++ index ++ "/" ++ timestamp ++ ".parquet"
    match putOutcome with
    | PutOutcome.succeeded =>
      ⟨[(bucket_name, key)], none, none,
        ["Successfully saved " ++ toString data.length ++ " records to " ++ key]⟩
    | PutOutcome.failed =>
      ⟨[(bucket_name, key)], none, none, ["Error saving to S3"]⟩

/-! ### ContainerStreamDecoder (src/gspread_from_s3.py, lines 29-92) -/

/-- One record yielded by the external `ArchiveIterator`: its `rec_type`,
the value of its WARC-Target-URI header (`none` when the header is
absent), and its raw content bytes, kept abstract as `β`. -/
structure RawRecord (β : Type) where
  recType : String
  targetURI : Option String
  content : β

/-- One element of the `extracted_data` list built by `extract_gz_content`:
the Python dict with keys URL, Type and Content. -/
structure Entry where
  url : String
  typeName : String
  content : String
deriving DecidableEq

/-- The external collaborators of `extract_gz_content`: strict UTF-8
decoding (`none` models `UnicodeDecodeError`), lossy UTF-8 decoding with
`errors='ignore'` (total), `json.loads` (`none` models a parse error),
Python `str` applied to the parsed JSON value, and
`BeautifulSoup(content, 'html.parser').get_text()`. -/
structure DecodeEnv (β J : Type) where
  utf8Decode : β → Option String
  utf8DecodeIgnore : β → String
  jsonLoads : String → Option J
  jsonToString : J → String
  soupGetText : String → String

/-- `record.rec_headers.get_header('WARC-Target-URI', 'N/A')`. -/
def headerOrNA {β : Type} (r : RawRecord β) : String :=
  r.targetURI.getD "N/A"

/-- Body of the per-record `try` in the `.wat.gz` branch: decode UTF-8,
parse JSON, stringify and truncate to 500 characters.  `none` models the
exception caught by the `except` that continues with the next record. -/
def processWAT {β J : Type} (env : DecodeEnv β J) (r : RawRecord β) : Option Entry :=
  match env.utf8Decode r.content with
  | none => none
  | some content =>
    match env.jsonLoads content with
    | none => none
    | some j => some ⟨headerOrNA r, "WAT", pyTake 500 (env.jsonToString j)⟩

/-- Body of the per-record `try` in the `.wet.gz` branch: decode UTF-8 and
truncate to 500 characters. -/
def processWET {β J : Type} (env : DecodeEnv β J) (r : RawRecord β) : Option Entry :=
  match env.utf8Decode r.content with
  | none => none
  | some content => some ⟨headerOrNA r, "WET", pyTake 500 content⟩

/-- Body of the per-record `try` in the `.warc.gz` branch: decode UTF-8
with `errors='ignore'` (total), strip HTML via BeautifulSoup, truncate to
500 characters. -/
def processWARC {β J : Type} (env : DecodeEnv β J) (r : RawRecord β) : Option Entry :=
  some ⟨headerOrNA r, "WARC", pyTake 500 (env.soupGetText (env.utf8DecodeIgnore r.content))⟩

/-- The record loop shared by the three branches of `extract_gz_content`:
break as soon as `extracted_data` holds `max_records` entries, consider
only records whose `rec_type` matches, append on success and `continue` on
a caught per-record exception. -/
def extractLoop {β : Type} (process : RawRecord β → Option Entry) (wantType : String)
    (max_records : Nat) : List (RawRecord β) → List Entry → List Entry
  | [], acc => acc
  | r :: rest, acc =>
    if max_records ≤ acc.length then acc
    else if r.recType == wantType then
      match process r with
      | some e => extractLoop process wantType max_records rest (acc ++ [e])
      | none => extractLoop process wantType max_records rest acc
    else extractLoop process wantType max_records rest acc

/-- Embedding of `extract_gz_content` (src/gspread_from_s3.py, lines
29-92).  `fetched` is the outcome of `get_object` plus gzip opening:
`none` models the outer `except` path (return `[]`); `some records` is the
record sequence the `ArchiveIterator` yields.  The branch is selected by
Python substring containment on the key, in source order `.wat.gz`,
`.wet.gz`, `.warc.gz`; an unrecognized key yields the untouched empty
`extracted_data`. -/
def extract_gz_content {β J : Type} (env : DecodeEnv β J) (key : String)
    (fetched : Option (List (RawRecord β))) (max_records : Nat) : List Entry :=
  match fetched with
  | none => []
  | some records =>
    if occursIn (String.data ".wat.gz") key.data then
      extractLoop (processWAT env) "metadata" max_records records []
    else if occursIn (String.data ".wet.gz") key.data then
      extractLoop (processWET env) "conversion" max_records records []
    else if occursIn (String.data ".warc.gz") key.data then
      extractLoop (processWARC env) "response" max_records records []
    else []

/-- Specification-side description of a decode pass: the records of the
wanted type whose per-record processing succeeds, in stream order,
malformed ones excluded. -/
def validEntries {β : Type} (process : RawRecord β → Option Entry) (wantType : String)
    (records : List (RawRecord β)) : List Entry :=
  (records.filter (fun r => r.recType == wantType)).filterMap process

/-! ### FanoutScheduler (src/commoncrawl-processor.py, lines 79-111) -/

/-- One parsed index record as used by the categorizers in
`process_with_dask`: Python `r.get('status')` and `r.get('mime')` return
`None` when the key is absent, hence the `Option` fields. -/
structure CCRec where
  status : Option String
  mime : Option String
deriving DecidableEq

/-- Observable events of one `process_with_dask` run: an invocation of
`query_index` for a (url, index) pair, or a `put_object` performed by
`save_to_s3` for a (folder, index) pair carrying that batch's record
count. -/
inductive DaskEvent where
  | queryCall (url index : String)
  | flush (folder index : String) (numRecords : Nat)
deriving DecidableEq

/-- The `folders` dict of `process_with_dask` (src/commoncrawl-processor.py,
lines 93-98), in insertion order: name and per-result-list processor. -/
def folders : List (String × (List CCRec → List CCRec)) :=
  [("process_crawl", fun x => x),
   ("explore_crawl", fun x => x.filter (fun r => r.status == some "200")),
   ("raw_data", fun x => x),
   ("processed_data", fun x => x.filter (fun r => r.mime == some "text/html"))]

/-- The flattened `all_records` value computed for one (folder, index)
pair: the processor applied to each url's query result, then flattened
(src/commoncrawl-processor.py, lines 104-107). -/
def categoryData (q : String → String → List CCRec) (pf : List CCRec → List CCRec)
    (index : String) (target_urls : List String) : List CCRec :=
  (target_urls.map (fun url => pf (q url index))).flatten

/-- The `query_index` invocations triggered by one `.compute()` on the
lazy bag `records_bag.map(processor_func)`: dask re-executes the upstream
`urls_bag.map(lambda url: self.query_index(url, index))` for every
compute, so each compute issues one query per url. -/
def queryEvents (index : String) (target_urls : List String) : List DaskEvent :=
  target_urls.map (fun url => DaskEvent.queryCall url index)

/-- The `put_object` events of one `save_to_s3` call: none when the batch
is empty (early return), exactly one otherwise. -/
def saveEvents (folder_name index : String) (all_records : List CCRec) : List DaskEvent :=
  if all_records.isEmpty then [] else [DaskEvent.flush folder_name index all_records.length]

/-- The events of one iteration of the folder loop: the `.compute()` on
`records_bag.map(processor_func)` re-runs the query map over all target
urls, then `save_to_s3` is called on the flattened result. -/
def folderEvents (q : String → String → List CCRec) (index : String)
    (target_urls : List String) (fp : String × (List CCRec → List CCRec)) : List DaskEvent :=
  queryEvents index target_urls ++
    saveEvents fp.1 index (categoryData q fp.2 index target_urls)

/-- Embedding of `CommonCrawlProcessor.process_with_dask`
(src/commoncrawl-processor.py, lines 79-111) as its event trace: for each
index (outer loop) and each folder (inner loop), the `.compute()` call
re-runs the query map over all target urls and the flattened result is
handed to `save_to_s3`.  The external index service is the parameter `q`. -/
def process_with_dask (q : String → String → List CCRec)
    (indexes target_urls : List String) : List DaskEvent :=
  indexes.flatMap (fun index => folders.flatMap (folderEvents q index target_urls))

/-- Whether an event is a `query_index` invocation. -/
def isQueryCall : DaskEvent → Bool
  | DaskEvent.queryCall _ _ => true
  | DaskEvent.flush _ _ _ => false

/-- Whether an event is a batch flush (a `put_object` by `save_to_s3`). -/
def isFlush : DaskEvent → Bool
  | DaskEvent.queryCall _ _ => false
  | DaskEvent.flush _ _ _ => true

/-- Number of `query_index` invocations in a trace. -/
def countQueryCalls (events : List DaskEvent) : Nat :=
  (events.filter isQueryCall).length

/-- Number of batch flushes in a trace. -/
def countFlushes (events : List DaskEvent) : Nat :=
  (events.filter isFlush).length

/-- Specification-side count of the (category, snapshot) pairs whose
combined categorized record list is non-empty. -/
def countNonEmptyPairs (q : String → String → List CCRec)
    (indexes target_urls : List String) : Nat :=
  (indexes.flatMap (fun index =>
    folders.filter (fun fp => !(categoryData q fp.2 index target_urls).isEmpty))).length

/-! ### Lemmas about the retry wrapper -/

theorem expectedWaits_length (jitter : Nat → ℚ) :
    ∀ (k attempt : Nat), (expectedWaits jitter attempt k).length = k := by
  intro k
  induction k with
  | zero => intro attempt; rfl
  | succ k ih => intro attempt; simp [expectedWaits, ih (attempt + 1)]

theorem expectedWaits_getD (jitter : Nat → ℚ) :
    ∀ (k attempt i : Nat), i < k →
      (expectedWaits jitter attempt k).getD i 0 = exponential_backoff jitter (attempt + i) := by
  intro k
  induction k with
  | zero => intro attempt i hi; omega
  | succ k ih =>
    intro attempt i hi
    cases i with
    | zero => simp [expectedWaits]
    | succ i =>
      have he : attempt + (i + 1) = attempt + 1 + i := by omega
      rw [he]
      simpa [expectedWaits] using ih (attempt + 1) i (by omega)

theorem retryAux_success {α : Type} (f : Nat → AttemptOutcome α) (jitter : Nat → ℚ) :
    ∀ (k attempt remaining : Nat) (v : α), k < remaining →
      (∀ i, i < k → f (attempt + i) = AttemptOutcome.apiError 429) →
      f (attempt + k) = AttemptOutcome.success v →
      retryAux f jitter attempt remaining = (Except.ok v, expectedWaits jitter attempt k) := by
  intro k
  induction k with
  | zero =>
    intro attempt remaining v hlt hfail hsucc
    cases remaining with
    | zero => omega
    | succ r =>
      have hs : f attempt = AttemptOutcome.success v := by simpa using hsucc
      simp [retryAux, hs, expectedWaits]
  | succ k ih =>
    intro attempt remaining v hlt hfail hsucc
    cases remaining with
    | zero => omega
    | succ r =>
      have h0 : f attempt = AttemptOutcome.apiError 429 := by simpa using hfail 0 (by omega)
      have hrec := ih (attempt + 1) r v (by omega)
        (fun i hi => by
          have he : attempt + 1 + i = attempt + (i + 1) := by omega
          rw [he]; exact hfail (i + 1) (by omega))
        (by
          have he : attempt + 1 + k = attempt + (k + 1) := by omega
          rw [he]; exact hsucc)
      simp [retryAux, h0, hrec, expectedWaits]

theorem retryAux_allFail {α : Type} (f : Nat → AttemptOutcome α) (jitter : Nat → ℚ) :
    ∀ (remaining attempt : Nat),
      (∀ i, i < remaining → f (attempt + i) = AttemptOutcome.apiError 429) →
      retryAux f jitter attempt remaining =
        (Except.error RetryError.exhausted, expectedWaits jitter attempt remaining) := by
  intro remaining
  induction remaining with
  | zero => intro attempt _; simp [retryAux, expectedWaits]
  | succ r ih =>
    intro attempt hfail
    have h0 : f attempt = AttemptOutcome.apiError 429 := by simpa using hfail 0 (by omega)
    have hrec := ih (attempt + 1) (fun i hi => by
      have he : attempt + 1 + i = attempt + (i + 1) := by omega
      rw [he]; exact hfail (i + 1) (by omega))
    simp [retryAux, h0, hrec, expectedWaits]

/-- C4: for every operation that fails with a rate-limited error exactly
`k` times and then succeeds, with `k < max_attempts`, `retry_with_backoff`
returns the success value and performs exactly `k` waits, the i-th wait
equal to `min(300, 2^i + jitter i)`; the jitter-free bounds `min(300, 2^i)`
are non-decreasing; and if the operation fails rate-limited on all
`max_attempts` attempts, the wrapper fails with the retry-exhausted
error. -/
theorem retry_success_and_exhaustion {α : Type} (jitter : Nat → ℚ) (max_attempts : Nat) :
    (∀ (f : Nat → AttemptOutcome α) (k : Nat) (v : α),
        k < max_attempts →
        (∀ i, i < k → f i = AttemptOutcome.apiError 429) →
        f k = AttemptOutcome.success v →
        (retry_with_backoff f jitter max_attempts).1 = Except.ok v ∧
        (retry_with_backoff f jitter max_attempts).2.length = k ∧
        ∀ i, i < k → (retry_with_backoff f jitter max_attempts).2.getD i 0 =
          exponential_backoff jitter i) ∧
    (∀ i j : Nat, i ≤ j →
        exponential_backoff (fun _ => 0) i ≤ exponential_backoff (fun _ => 0) j) ∧
    (∀ g : Nat → AttemptOutcome α,
        (∀ i, i < max_attempts → g i = AttemptOutcome.apiError 429) →
        (retry_with_backoff g jitter max_attempts).1 = Except.error RetryError.exhausted) := by
  refine ⟨?_, ?_, ?_⟩
  · intro f k v hk hfail hsucc
    have h := retryAux_success f jitter k 0 max_attempts v hk
      (fun i hi => by simpa using hfail i hi) (by simpa using hsucc)
    simp only [retry_with_backoff, h]
    refine ⟨trivial, expectedWaits_length jitter k 0, ?_⟩
    intro i hi
    simpa using expectedWaits_getD jitter k 0 i hi
  · intro i j hij
    simp only [exponential_backoff, add_zero]
    exact min_le_min le_rfl (pow_le_pow_right₀ (by norm_num) hij)
  · intro g hfail
    have h := retryAux_allFail g jitter max_attempts 0 (fun i hi => by simpa using hfail i hi)
    simp only [retry_with_backoff, h]

/-- An operation failing rate-limited twice and then returning 7. -/
def fTwo429 : Nat → AttemptOutcome Nat :=
  fun i => if i < 2 then AttemptOutcome.apiError 429 else AttemptOutcome.success 7

/-- An operation failing rate-limited on every attempt. -/
def gAll429 : Nat → AttemptOutcome Nat := fun _ => AttemptOutcome.apiError 429

/-- A concrete jitter draw of one half on every attempt. -/
def halfJitter : Nat → ℚ := fun _ => 1 / 2

/-- Witness for C4: with the source default of 5 attempts, two 429
failures followed by success return the success value, and five straight
429 failures exhaust the retries. -/
theorem retry_success_and_exhaustion_witness :
    (retry_with_backoff fTwo429 halfJitter 5).1 = Except.ok 7 ∧
    (retry_with_backoff gAll429 halfJitter 5).1 = Except.error RetryError.exhausted :=
  ⟨((retry_success_and_exhaustion halfJitter 5).1 fTwo429 2 7 (by decide)
      (by decide) (by decide)).1,
   (retry_success_and_exhaustion halfJitter 5).2.2 gAll429 (fun _ _ => rfl)⟩

/-- C10: if the guarded operation fails rate-limited on every one of the
`max_attempts` attempts, `retry_with_backoff` performs exactly
`max_attempts` backoff waits — including one after the final failed
attempt — before raising the exhaustion error. -/
theorem retry_exhaustion_wait_count {α : Type} (jitter : Nat → ℚ) (max_attempts : Nat)
    (g : Nat → AttemptOutcome α)
    (h : ∀ i, i < max_attempts → g i = AttemptOutcome.apiError 429) :
    (retry_with_backoff g jitter max_attempts).1 = Except.error RetryError.exhausted ∧
    (retry_with_backoff g jitter max_attempts).2.length = max_attempts := by
  have hall := retryAux_allFail g jitter max_attempts 0 (fun i hi => by simpa using h i hi)
  simp only [retry_with_backoff, hall]
  exact ⟨trivial, expectedWaits_length jitter max_attempts 0⟩

/-- Witness for C10: three attempts all hitting rate limits perform three
waits, one of them after the last failed attempt. -/
theorem retry_exhaustion_wait_count_witness :
    (retry_with_backoff gAll429 halfJitter 3).1 = Except.error RetryError.exhausted ∧
    (retry_with_backoff gAll429 halfJitter 3).2.length = 3 :=
  retry_exhaustion_wait_count halfJitter 3 gAll429 (fun _ _ => rfl)

/-! ### Lemmas about the index query client -/

theorem mapJson_all_some {J : Type} (jsonLoads : String → Option J) :
    ∀ l : List String, (∀ line ∈ l, (jsonLoads line).isSome) →
      mapJson jsonLoads l = some (l.filterMap jsonLoads) := by
  intro l
  induction l with
  | nil => intro _; rfl
  | cons line rest ih =>
    intro h
    obtain ⟨j, hj⟩ := Option.isSome_iff_exists.mp (h line (List.mem_cons_self line rest))
    have h2 := ih (fun x hx => h x (List.mem_cons_of_mem _ hx))
    simp [mapJson, hj, h2, List.filterMap_cons]

theorem mapJson_has_none {J : Type} (jsonLoads : String → Option J) :
    ∀ l : List String, (∃ line ∈ l, jsonLoads line = none) →
      mapJson jsonLoads l = none := by
  intro l
  induction l with
  | nil => rintro ⟨line, hmem, _⟩; cases hmem
  | cons first rest ih =>
    rintro ⟨line, hmem, hnone⟩
    rcases List.mem_cons.mp hmem with h | h
    · subst h; simp [mapJson, hnone]
    · cases hf : jsonLoads first with
      | none => simp [mapJson, hf]
      | some j => simp [mapJson, hf, ih ⟨line, h, hnone⟩]

/-- A concrete stand-in for `json.loads`: only the line "ok" is
well-formed JSON and parses to the record 1; every other line raises. -/
def stubLoads : String → Option Nat := fun s => if s = "ok" then some 1 else none

/-- C2 counterexample: the successful response body holds the well-formed
line "ok" and the malformed line "bad".  The claim says the record from
the well-formed line is still returned, but `query_index` returns the
empty list: the exception from the malformed line aborts the whole
comprehension and is caught at response level, dropping every record. -/
theorem query_index_drops_wellformed :
    stubLoads "ok" = some 1 ∧ stubLoads "bad" = none ∧
    query_index stubLoads (HttpResult.response 200 "ok\nbad") = [] ∧
    query_index stubLoads (HttpResult.response 200 "ok\nbad") ≠ [1] := by decide

/-- C2 (amended): each non-empty line of a successful response body is
parsed as one JSON object; if every such line is well-formed, the mapped
records are all returned, but if any line is malformed the raised error is
caught at whole-response level and the query returns the empty list: the
records of the well-formed lines are dropped along with it. -/
theorem query_index_all_or_nothing {J : Type} (jsonLoads : String → Option J) (body : String) :
    ((∀ line ∈ pyLines body, (jsonLoads line).isSome) →
       query_index jsonLoads (HttpResult.response 200 body)
         = (pyLines body).filterMap jsonLoads) ∧
    ((∃ line ∈ pyLines body, jsonLoads line = none) →
       query_index jsonLoads (HttpResult.response 200 body) = []) := by
  constructor
  · intro h
    simp [query_index, mapJson_all_some jsonLoads (pyLines body) h]
  · intro h
    simp [query_index, mapJson_has_none jsonLoads (pyLines body) h]

/-- Witness for C2 (amended): a body whose single non-empty line parses
yields exactly that record. -/
theorem query_index_all_or_nothing_witness :
    query_index stubLoads (HttpResult.response 200 "ok") = [1] :=
  ((query_index_all_or_nothing stubLoads "ok").1 (by decide)).trans (by decide)

/-- C7: for every (pattern, snapshotId) pair, the index query never raises
on a non-success response or transport error: the embedded `query_index`
is total and returns the empty list both for a transport error and for any
non-200 status, so the overall run continues. -/
theorem query_index_failure_empty {J : Type} (jsonLoads : String → Option J) :
    query_index jsonLoads HttpResult.transportError = [] ∧
    ∀ (statusCode : Nat) (body : String), statusCode ≠ 200 →
      query_index jsonLoads (HttpResult.response statusCode body) = [] := by
  refine ⟨rfl, ?_⟩
  intro statusCode body h
  simp [query_index, h]

/-- Witness for C7: a transport error and a 404 response both yield the
empty record list. -/
theorem query_index_failure_empty_witness :
    query_index stubLoads HttpResult.transportError = [] ∧
    query_index stubLoads (HttpResult.response 404 "x") = [] :=
  ⟨(query_index_failure_empty stubLoads).1,
   (query_index_failure_empty stubLoads).2 404 "x" (by decide)⟩

/-! ### Lemmas about the batch sink -/

/-- C3 counterexample: with a non-empty batch and a failing `put_object`,
`save_to_s3` raises nothing to its caller — the failure is caught and
printed inside the function — so the claim that the failure is reported to
the caller of the write operation is false.  (The write is indeed not
retried: exactly one put is attempted.) -/
theorem save_to_s3_swallows_write_failure :
    (save_to_s3 PutOutcome.failed "t" "b" [(0 : Nat)] "f" "i").raisedToCaller = none ∧
    (save_to_s3 PutOutcome.failed "t" "b" [(0 : Nat)] "f" "i").puts.length = 1 := by decide

/-- C3 (amended): for every batch write with a non-empty record set whose
underlying storage write fails, the write is not retried internally
(exactly one put is attempted), but the failure is not reported to the
caller either: it is caught inside `save_to_s3`, an error message is
printed, and the function returns normally. -/
theorem save_to_s3_absorbs_failure {Row : Type}
    (timestamp bucket_name folder_name index : String) (data : List Row)
    (h : data.isEmpty = false) :
    (save_to_s3 PutOutcome.failed timestamp bucket_name data folder_name index).puts.length = 1 ∧
    (save_to_s3 PutOutcome.failed timestamp bucket_name data folder_name index).raisedToCaller
      = none ∧
    (save_to_s3 PutOutcome.failed timestamp bucket_name data folder_name index).log
      = ["Error saving to S3"] := by
  simp [save_to_s3, h]

/-- Witness for C3 (amended): one failed put on a one-row batch raises
nothing to the caller. -/
theorem save_to_s3_absorbs_failure_witness :
    (save_to_s3 PutOutcome.failed "t" "b" [(0 : Nat)] "f" "i").raisedToCaller = none :=
  (save_to_s3_absorbs_failure "t" "b" "f" "i" [(0 : Nat)] rfl).2.1

/-- C9: calling the sink's write with an empty record set is a no-op: zero
underlying storage writes are performed, nothing is printed, and the call
returns immediately with no location. -/
theorem save_to_s3_empty_noop {Row : Type} (putOutcome : PutOutcome)
    (timestamp bucket_name folder_name index : String) :
    (save_to_s3 putOutcome timestamp bucket_name ([] : List Row) folder_name index).puts = [] ∧
    (save_to_s3 putOutcome timestamp bucket_name ([] : List Row) folder_name
        index).returnedLocation = none ∧
    (save_to_s3 putOutcome timestamp bucket_name ([] : List Row) folder_name index).log = [] := by
  simp [save_to_s3]

/-! ### Lemmas about the container decoder -/

theorem extractLoop_eq {β : Type} (process : RawRecord β → Option Entry) (wantType : String)
    (max_records : Nat) :
    ∀ (records : List (RawRecord β)) (acc : List Entry),
      extractLoop process wantType max_records records acc
        = acc ++ (validEntries process wantType records).take (max_records - acc.length) := by
  intro records
  induction records with
  | nil => intro acc; simp [extractLoop, validEntries]
  | cons r rest ih =>
    intro acc
    by_cases hm : max_records ≤ acc.length
    · have h0 : max_records - acc.length = 0 := Nat.sub_eq_zero_of_le hm
      simp [extractLoop, hm, h0]
    · have hlt : acc.length < max_records := Nat.lt_of_not_le hm
      by_cases ht : r.recType == wantType
      · cases hp : process r with
        | some e =>
          have hstep : extractLoop process wantType max_records (r :: rest) acc
              = extractLoop process wantType max_records rest (acc ++ [e]) := by
            simp [extractLoop, hm, ht, hp]
          have hv : validEntries process wantType (r :: rest)
              = e :: validEntries process wantType rest := by
            simp [validEntries, List.filter_cons, ht, List.filterMap_cons, hp]
          rw [hstep, ih, hv]
          have harith : max_records - acc.length = (max_records - (acc.length + 1)) + 1 := by
            omega
          rw [harith, List.take_succ_cons]
          simp [List.append_assoc]
        | none =>
          have hstep : extractLoop process wantType max_records (r :: rest) acc
              = extractLoop process wantType max_records rest acc := by
            simp [extractLoop, hm, ht, hp]
          have hv : validEntries process wantType (r :: rest)
              = validEntries process wantType rest := by
            simp [validEntries, List.filter_cons, ht, List.filterMap_cons, hp]
          rw [hstep, ih, hv]
      · have hstep : extractLoop process wantType max_records (r :: rest) acc
            = extractLoop process wantType max_records rest acc := by
          simp [extractLoop, hm, ht]
        have hv : validEntries process wantType (r :: rest)
            = validEntries process wantType rest := by
          simp [validEntries, List.filter_cons, ht]
        rw [hstep, ih, hv]

theorem extract_gz_as_take {β J : Type} (env : DecodeEnv β J) (key : String)
    (records : List (RawRecord β)) (max_records : Nat) :
    extract_gz_content env key (some records) max_records
      = if occursIn (String.data ".wat.gz") key.data then
          (validEntries (processWAT env) "metadata" records).take max_records
        else if occursIn (String.data ".wet.gz") key.data then
          (validEntries (processWET env) "conversion" records).take max_records
        else if occursIn (String.data ".warc.gz") key.data then
          (validEntries (processWARC env) "response" records).take max_records
        else [] := by
  simp only [extract_gz_content]
  by_cases h1 : occursIn (String.data ".wat.gz") key.data
  · simp [h1, extractLoop_eq]
  · by_cases h2 : occursIn (String.data ".wet.gz") key.data
    · simp [h1, h2, extractLoop_eq]
    · by_cases h3 : occursIn (String.data ".warc.gz") key.data
      · simp [h1, h2, h3, extractLoop_eq]
      · simp [h1, h2, h3]

/-- C5: a per-record decode failure skips exactly that record and the
decoder still yields the subsequent valid records: for each recognized
container kind the output is the well-formed records of the selected type
in stream order, truncated to the budget, so its length is the number of
valid records up to the budget, malformed ones excluded. -/
theorem extract_gz_skips_only_malformed {β J : Type} (env : DecodeEnv β J) (key : String)
    (records : List (RawRecord β)) (max_records : Nat)
    (process : RawRecord β → Option Entry) (wantType : String)
    (hkind :
      (occursIn (String.data ".wat.gz") key.data = true ∧
        process = processWAT env ∧ wantType = "metadata") ∨
      (occursIn (String.data ".wat.gz") key.data = false ∧
        occursIn (String.data ".wet.gz") key.data = true ∧
        process = processWET env ∧ wantType = "conversion") ∨
      (occursIn (String.data ".wat.gz") key.data = false ∧
        occursIn (String.data ".wet.gz") key.data = false ∧
        occursIn (String.data ".warc.gz") key.data = true ∧
        process = processWARC env ∧ wantType = "response")) :
    extract_gz_content env key (some records) max_records
      = (validEntries process wantType records).take max_records ∧
    (extract_gz_content env key (some records) max_records).length
      = min max_records (validEntries process wantType records).length := by
  have hchar := extract_gz_as_take env key records max_records
  rcases hkind with ⟨h1, hp, hw⟩ | ⟨h1, h2, hp, hw⟩ | ⟨h1, h2, h3, hp, hw⟩
  · subst hp; subst hw
    have hx : extract_gz_content env key (some records) max_records
        = (validEntries (processWAT env) "metadata" records).take max_records := by
      rw [hchar]; simp [h1]
    exact ⟨hx, by rw [hx, List.length_take]⟩
  · subst hp; subst hw
    have hx : extract_gz_content env key (some records) max_records
        = (validEntries (processWET env) "conversion" records).take max_records := by
      rw [hchar]; simp [h1, h2]
    exact ⟨hx, by rw [hx, List.length_take]⟩
  · subst hp; subst hw
    have hx : extract_gz_content env key (some records) max_records
        = (validEntries (processWARC env) "response" records).take max_records := by
      rw [hchar]; simp [h1, h2, h3]
    exact ⟨hx, by rw [hx, List.length_take]⟩

/-- A concrete decode environment for witnesses: content bytes are modelled
as an optional string (`none` stands for undecodable bytes), JSON values
are naturals and only the string "7" is well-formed JSON, and HTML
stripping is the identity. -/
def testEnv : DecodeEnv (Option String) Nat :=
  ⟨fun b => b, fun b => b.getD "", fun s => if s = "7" then some 7 else none,
   fun n => toString n, fun s => s⟩

/-- A container stream holding two valid conversion records around one
whose bytes do not decode. -/
def demoRecords : List (RawRecord (Option String)) :=
  [⟨"conversion", some "u1", some "hello"⟩,
   ⟨"conversion", some "u2", none⟩,
   ⟨"conversion", some "u3", some "world"⟩]

/-- Witness for C5: on a `.wet.gz` key the corrupted middle record is
skipped and both surrounding valid records are extracted. -/
theorem extract_gz_skips_only_malformed_witness :
    extract_gz_content testEnv "a.wet.gz" (some demoRecords) 5
      = (validEntries (processWET testEnv) "conversion" demoRecords).take 5 ∧
    extract_gz_content testEnv "a.wet.gz" (some demoRecords) 5
      = [⟨"u1", "WET", "hello"⟩, ⟨"u3", "WET", "world"⟩] :=
  ⟨(extract_gz_skips_only_malformed testEnv "a.wet.gz" demoRecords 5
      (processWET testEnv) "conversion" (Or.inr (Or.inl ⟨rfl, rfl, rfl, rfl⟩))).1,
   by decide⟩

/-- C6: for every container input and record budget, the decoder returns
at most `max_records` records, and for a budget of 0 it returns exactly no
records. -/
theorem extract_gz_budget {β J : Type} (env : DecodeEnv β J) (key : String)
    (fetched : Option (List (RawRecord β))) (max_records : Nat) :
    (extract_gz_content env key fetched max_records).length ≤ max_records ∧
    (max_records = 0 → extract_gz_content env key fetched max_records = []) := by
  cases fetched with
  | none => simp [extract_gz_content]
  | some records =>
    rw [extract_gz_as_take]
    constructor
    · split_ifs <;> simp only [List.length_take, List.length_nil] <;> omega
    · intro h; subst h; split_ifs <;> simp

/-- Witness for C6: with a record budget of 0 the decoder extracts
nothing, even from a stream with valid records. -/
theorem extract_gz_budget_witness :
    extract_gz_content testEnv "a.wet.gz" (some demoRecords) 0 = [] :=
  (extract_gz_budget testEnv "a.wet.gz" (some demoRecords) 0).2 rfl

/-! ### Lemmas about the fan-out scheduler -/

theorem countQueryCalls_append (a b : List DaskEvent) :
    countQueryCalls (a ++ b) = countQueryCalls a + countQueryCalls b := by
  simp [countQueryCalls, List.filter_append]

theorem countFlushes_append (a b : List DaskEvent) :
    countFlushes (a ++ b) = countFlushes a + countFlushes b := by
  simp [countFlushes, List.filter_append]

theorem countQueryCalls_cons (e : DaskEvent) (l : List DaskEvent) :
    countQueryCalls (e :: l) = (if isQueryCall e then 1 else 0) + countQueryCalls l := by
  by_cases h : isQueryCall e <;> simp [countQueryCalls, List.filter_cons, h] <;> omega

theorem countFlushes_cons (e : DaskEvent) (l : List DaskEvent) :
    countFlushes (e :: l) = (if isFlush e then 1 else 0) + countFlushes l := by
  by_cases h : isFlush e <;> simp [countFlushes, List.filter_cons, h] <;> omega

theorem countQueryCalls_queryEvents (index : String) (target_urls : List String) :
    countQueryCalls (queryEvents index target_urls) = target_urls.length := by
  induction target_urls with
  | nil => rfl
  | cons u rest ih =>
    rw [show queryEvents index (u :: rest)
        = DaskEvent.queryCall u index :: queryEvents index rest from rfl,
      countQueryCalls_cons, ih]
    simp [isQueryCall]
    omega

theorem countFlushes_queryEvents (index : String) (target_urls : List String) :
    countFlushes (queryEvents index target_urls) = 0 := by
  induction target_urls with
  | nil => rfl
  | cons u rest ih =>
    rw [show queryEvents index (u :: rest)
        = DaskEvent.queryCall u index :: queryEvents index rest from rfl,
      countFlushes_cons, ih]
    simp [isFlush]

theorem countQueryCalls_saveEvents (folder_name index : String) (d : List CCRec) :
    countQueryCalls (saveEvents folder_name index d) = 0 := by
  by_cases h : d.isEmpty <;>
    simp [saveEvents, h, countQueryCalls, List.filter_cons, isQueryCall]

theorem countFlushes_saveEvents (folder_name index : String) (d : List CCRec) :
    countFlushes (saveEvents folder_name index d) = if d.isEmpty then 0 else 1 := by
  by_cases h : d.isEmpty <;>
    simp [saveEvents, h, countFlushes, List.filter_cons, isFlush]

theorem countQueryCalls_folderEvents (q : String → String → List CCRec) (index : String)
    (target_urls : List String) (fp : String × (List CCRec → List CCRec)) :
    countQueryCalls (folderEvents q index target_urls fp) = target_urls.length := by
  simp [folderEvents, countQueryCalls_append, countQueryCalls_queryEvents,
    countQueryCalls_saveEvents]

theorem countFlushes_folderEvents (q : String → String → List CCRec) (index : String)
    (target_urls : List String) (fp : String × (List CCRec → List CCRec)) :
    countFlushes (folderEvents q index target_urls fp)
      = if (categoryData q fp.2 index target_urls).isEmpty then 0 else 1 := by
  simp [folderEvents, countFlushes_append, countFlushes_queryEvents, countFlushes_saveEvents]

theorem countQueryCalls_folderList (q : String → String → List CCRec) (index : String)
    (target_urls : List String) :
    ∀ fs : List (String × (List CCRec → List CCRec)),
      countQueryCalls (fs.flatMap (folderEvents q index target_urls))
        = fs.length * target_urls.length := by
  intro fs
  induction fs with
  | nil => simp [countQueryCalls]
  | cons fp rest ih =>
    rw [List.flatMap_cons, countQueryCalls_append, countQueryCalls_folderEvents, ih,
      List.length_cons]
    ring

theorem countFlushes_folderList (q : String → String → List CCRec) (index : String)
    (target_urls : List String) :
    ∀ fs : List (String × (List CCRec → List CCRec)),
      countFlushes (fs.flatMap (folderEvents q index target_urls))
        = (fs.filter (fun fp => !(categoryData q fp.2 index target_urls).isEmpty)).length := by
  intro fs
  induction fs with
  | nil => simp [countFlushes]
  | cons fp rest ih =>
    rw [List.flatMap_cons, countFlushes_append, countFlushes_folderEvents, ih, List.filter_cons]
    by_cases h : (categoryData q fp.2 index target_urls).isEmpty <;> simp [h] <;> omega

theorem process_with_dask_cons (q : String → String → List CCRec) (index : String)
    (rest target_urls : List String) :
    process_with_dask q (index :: rest) target_urls
      = folders.flatMap (folderEvents q index target_urls)
          ++ process_with_dask q rest target_urls := by
  simp [process_with_dask, List.flatMap_cons]

theorem countNonEmptyPairs_cons (q : String → String → List CCRec) (index : String)
    (rest target_urls : List String) :
    countNonEmptyPairs q (index :: rest) target_urls
      = (folders.filter (fun fp => !(categoryData q fp.2 index target_urls).isEmpty)).length
          + countNonEmptyPairs q rest target_urls := by
  simp [countNonEmptyPairs, List.flatMap_cons, List.length_append]

/-- The fake index client used for the counterexample: every query returns
no records. -/
def qEmpty : String → String → List CCRec := fun _ _ => []

/-- C1 counterexample: for patterns P = ["a", "b"] and snapshots
S = ["s1", "s2"] the claim predicts exactly |P|·|S| = 4 query calls, but
the run issues 16: the lazy dask bag `records_bag` is recomputed by the
`.compute()` of each of the four folders, re-invoking `query_index` for
every url each time. -/
theorem fanout_query_count_refuted :
    countQueryCalls (process_with_dask qEmpty ["s1", "s2"] ["a", "b"]) = 16 ∧
    countQueryCalls (process_with_dask qEmpty ["s1", "s2"] ["a", "b"]) ≠ 2 * 2 := by decide

/-- C1 (amended): a run issues exactly |folders|·|P|·|S| index query calls
(the folder loop recomputes the lazy query bag, and there are 4 folders),
and performs exactly one batch flush per (non-empty category, snapshot)
pair. -/
theorem fanout_work_counts (q : String → String → List CCRec)
    (indexes target_urls : List String) :
    countQueryCalls (process_with_dask q indexes target_urls)
      = folders.length * (indexes.length * target_urls.length) ∧
    folders.length = 4 ∧
    countFlushes (process_with_dask q indexes target_urls)
      = countNonEmptyPairs q indexes target_urls := by
  refine ⟨?_, rfl, ?_⟩
  · induction indexes with
    | nil => simp [process_with_dask, countQueryCalls]
    | cons index rest ih =>
      rw [process_with_dask_cons, countQueryCalls_append, countQueryCalls_folderList, ih,
        List.length_cons]
      ring
  · induction indexes with
    | nil => simp [process_with_dask, countFlushes, countNonEmptyPairs]
    | cons index rest ih =>
      rw [process_with_dask_cons, countFlushes_append, countFlushes_folderList, ih,
        countNonEmptyPairs_cons]

end AWSextract
